import Mathlib

/-!
# Verification of the chrono `Day` abstraction and datetime core

Shallow embedding of `src/day.rs` together with the datetime values and
text-codec behaviour pinned by `src/datetime/tests.rs`.  The `Day` type, its
equality/ordering, its start-of-day probe loop and its checked day arithmetic
are translated directly from `day.rs`.  The `DateTime` type, the offset
resolution result, and the RFC 3339 / RFC 2822 codec behaviour are not present
in the sources (only their tests are); those definitions are modelled from the
specification and are marked as such.
-/

namespace Chrono

/-- A civil calendar date, represented (as in the source) by a day number on
the proleptic Gregorian calendar; `days` counts days since 1970-01-01. -/
structure NaiveDate where
  days : Int
deriving DecidableEq, Repr

/-- A civil time of day: `secs` seconds from midnight in `[0, 86400)` and
`frac` nanoseconds in `[0, 2_000_000_000)`, the band `[1e9, 2e9)` encoding a
positive leap second. -/
structure NaiveTime where
  secs : Nat
  frac : Nat
deriving DecidableEq, Repr

/-- A civil date-time: a wall-clock reading with no attached offset. -/
structure NaiveDateTime where
  date : NaiveDate
  time : NaiveTime
deriving DecidableEq, Repr

/-- Midnight, `NaiveTime::MIN` in the source. -/
def NaiveTime.MIN : NaiveTime := ⟨0, 0⟩

/-- `NaiveTime::from_hms_opt` (valid-range inputs). -/
def NaiveTime.from_hms (h m s : Nat) : NaiveTime := ⟨h * 3600 + m * 60 + s, 0⟩

/-- `NaiveTime::from_hms_milli_opt`: the millisecond field may be `1000`,
which places the value in the leap-second band. -/
def NaiveTime.from_hms_milli (h m s milli : Nat) : NaiveTime :=
  ⟨h * 3600 + m * 60 + s, milli * 1000000⟩

/-- `NaiveTime::from_hms_micro_opt`. -/
def NaiveTime.from_hms_micro (h m s micro : Nat) : NaiveTime :=
  ⟨h * 3600 + m * 60 + s, micro * 1000⟩

/-- `NaiveTime::from_hms_nano_opt`. -/
def NaiveTime.from_hms_nano (h m s nano : Nat) : NaiveTime :=
  ⟨h * 3600 + m * 60 + s, nano⟩

/-- Strict order on `NaiveTime`, lexicographic on `(secs, frac)` as derived in
the source. -/
def NaiveTime.ltb (a b : NaiveTime) : Bool :=
  a.secs < b.secs || (a.secs == b.secs && a.frac < b.frac)

/-- Strict order on `NaiveDateTime`, lexicographic on `(date, time)`. -/
def NaiveDateTime.ltb (a b : NaiveDateTime) : Bool :=
  a.date.days < b.date.days ||
    (a.date.days == b.date.days && NaiveTime.ltb a.time b.time)

/-- Three-way comparison of civil date-times, matching the derived `Ord`. -/
def NaiveDateTime.cmp (a b : NaiveDateTime) : Ordering :=
  if NaiveDateTime.ltb a b then .lt else if a = b then .eq else .gt

/-- Total nanoseconds of a civil date-time relative to the epoch, used for
exact signed differences. -/
def NaiveDateTime.toNanos (a : NaiveDateTime) : Int :=
  (a.date.days * 86400 + (a.time.secs : Int)) * 1000000000 + (a.time.frac : Int)

/-- Shift a civil date-time by a whole number of seconds, rolling the date as
needed; the sub-second field is unchanged. -/
def NaiveDateTime.addSeconds (a : NaiveDateTime) (s : Int) : NaiveDateTime :=
  let total : Int := a.date.days * 86400 + (a.time.secs : Int) + s
  ⟨⟨Int.ediv total 86400⟩, ⟨(Int.emod total 86400).toNat, a.time.frac⟩⟩

/-- The tri-state result of resolving a civil date-time against a timezone:
`LocalResult` in the source. -/
inductive LocalResult (α : Type) where
  | nothing : LocalResult α
  | single : α → LocalResult α
  | ambiguous : α → α → LocalResult α
deriving DecidableEq, Repr

/-- An absolute instant: a UTC civil reading (`datetime`, the `naive_utc`
view) together with the offset (seconds east of UTC) it was produced under.
Modelled from the spec: the generic `DateTime<Tz>` type is not in the sources;
per spec §3 it is a CivilDateTime-in-UTC bundled with the provider's offset
value, and equality/ordering compare the UTC instant only. -/
structure DateTime where
  datetime : NaiveDateTime
  offset : Int
deriving DecidableEq, Repr

/-- `naive_utc()`: the UTC civil reading of an instant. -/
def DateTime.naive_utc (dt : DateTime) : NaiveDateTime := dt.datetime

/-- Equality of instants: compares only the underlying UTC instant, never the
attached offset (spec §4.3). -/
def DateTime.eqb (a b : DateTime) : Bool := a.datetime == b.datetime

/-- Ordering of instants: compares only the underlying UTC instant. -/
def DateTime.cmp (a b : DateTime) : Ordering := NaiveDateTime.cmp a.datetime b.datetime

/-- `signed_duration_since`: the exact signed elapsed time (in nanoseconds)
between two instants, independent of their attached offsets. -/
def DateTime.signed_duration_since (a b : DateTime) : Int :=
  a.datetime.toNanos - b.datetime.toNanos

/-- Build an instant from a civil local reading and a fixed offset: the UTC
reading is the local reading minus the offset. -/
def DateTime.from_local (l : NaiveDateTime) (offset : Int) : DateTime :=
  ⟨l.addSeconds (-offset), offset⟩

/-- The civil local reading of an instant under its attached offset. -/
def DateTime.naive_local (dt : DateTime) : NaiveDateTime :=
  dt.datetime.addSeconds dt.offset

/-- `Instant + Duration` (whole seconds): adds on the UTC reading and keeps
the offset. -/
def DateTime.addDt (dt : DateTime) (s : Int) : DateTime :=
  ⟨dt.datetime.addSeconds s, dt.offset⟩

/-- `Day<Tz>` from `day.rs`: a civil date bound to an offset provider value. -/
structure Day (Tz : Type) where
  date : NaiveDate
  tz : Tz

/-- `PartialEq for Day`: compares the civil date only; the provider component
is never consulted. -/
def Day.eqb {Tz : Type} (a b : Day Tz) : Bool := a.date == b.date

/-- `Ord for Day`: civil-date order; the provider component is never
consulted. -/
def Day.cmp {Tz : Type} (a b : Day Tz) : Ordering := compare a.date.days b.date.days

/-- The probe time used by `Day::start`: civil midnight plus `k * 15`
minutes (`NaiveTime::MIN + Duration::minutes(multiple * 15)`). -/
def probeTime (k : Nat) : NaiveTime := ⟨k * 900, 0⟩

/-- The loop body of `Day::start`: starting at probe index `k` with the given
fuel, probe `resolve` at `date.and_time(probeTime k)`; on `nothing` continue
with the next index, on `single` return the instant, on `ambiguous` return
the side with the smaller `naive_utc`.  Running out of fuel models the
`panic!` as `none`. -/
def startLoop (resolve : NaiveDateTime → LocalResult DateTime) (date : NaiveDate) :
    Nat → Nat → Option DateTime
  | _, 0 => none
  | k, fuel + 1 =>
    match resolve ⟨date, probeTime k⟩ with
    | .nothing => startLoop resolve date (k + 1) fuel
    | .single dt => some dt
    | .ambiguous dt1 dt2 =>
      if NaiveDateTime.ltb dt1.naive_utc dt2.naive_utc then some dt1 else some dt2

/-- `Day::start` from `day.rs`: probe `resolve_local` at midnight plus
`k * 15` minutes for `k = 0..=24`; `none` models the `panic!` reached when
every probe resolves to `LocalResult::None`. -/
def Day.start {Tz : Type} (resolve : Tz → NaiveDateTime → LocalResult DateTime)
    (d : Day Tz) : Option DateTime :=
  startLoop (resolve d.tz) d.date 0 25

/-! ## Calendar arithmetic and the checked day shifts of `day.rs` -/

/-- Day number (days since 1970-01-01) of a proleptic-Gregorian civil date,
via the standard era decomposition. -/
def daysFromCivil (y m d : Int) : Int :=
  let yy := y - (if m ≤ 2 then 1 else 0)
  let era := Int.ediv yy 400
  let yoe := yy - era * 400
  let mp := Int.emod (m + 9) 12
  let doy := Int.ediv (153 * mp + 2) 5 + d - 1
  let doe := yoe * 365 + Int.ediv yoe 4 - Int.ediv yoe 100 + doy
  era * 146097 + doe - 719468

/-- Civil date `(y, m, d)` of a day number, inverse of `daysFromCivil`. -/
def civilFromDays (z0 : Int) : Int × Int × Int :=
  let z := z0 + 719468
  let era := Int.ediv z 146097
  let doe := z - era * 146097
  let yoe := Int.ediv
    (doe - Int.ediv doe 1460 + Int.ediv doe 36524 - Int.ediv doe 146096) 365
  let y := yoe + era * 400
  let doy := doe - (365 * yoe + Int.ediv yoe 4 - Int.ediv yoe 100)
  let mp := Int.ediv (5 * doy + 2) 153
  let d := doy - Int.ediv (153 * mp + 2) 5 + 1
  let m := mp + (if mp < 10 then 3 else -9)
  (y + (if m ≤ 2 then 1 else 0), m, d)

/-- Modelled from the spec: the bounded representable range of `CivilDate`
(§3: "within a bounded representable range"); the concrete `NaiveDate`
implementation is not in the sources.  The bounds used are the first day of
year −262144 and the last day of year 262143. -/
def dateMinDays : Int := daysFromCivil (-262144) 1 1

/-- Upper bound of the representable civil-date range; see `dateMinDays`. -/
def dateMaxDays : Int := daysFromCivil 262143 12 31

/-- Modelled from the spec: `add_days`/`checked_add_signed` on a civil date
(§4.1: shift by a signed day count, absent on overflow of the representable
date range; never silently wraps); the `NaiveDate` arithmetic itself is not
in the sources. -/
def NaiveDate.add_days (d : NaiveDate) (n : Int) : Option NaiveDate :=
  let v := d.days + n
  if dateMinDays ≤ v ∧ v ≤ dateMaxDays then some ⟨v⟩ else none

/-- `Days`: an unsigned 64-bit day count (`pub struct Days(pub u64)`). -/
structure Days where
  v : Nat
deriving DecidableEq, Repr

/-- `i64::MAX`, the largest day count `i64::try_from(days.0)` accepts. -/
def i64Max : Nat := 9223372036854775807

/-- `Day::diff_days`: shift the civil date by a signed day count, keeping the
provider (`Day { date, ..self }`); absent on calendar-range overflow. -/
def Day.diff_days {Tz : Type} (d : Day Tz) (days : Int) : Option (Day Tz) :=
  (d.date.add_days days).map fun nd => ⟨nd, d.tz⟩

/-- `Day::checked_add_days`: zero is the identity; a count beyond `i64::MAX`
fails the `i64::try_from` conversion and is absent; otherwise delegate to
`diff_days`. -/
def Day.checked_add_days {Tz : Type} (d : Day Tz) (days : Days) : Option (Day Tz) :=
  if days.v = 0 then some d
  else if days.v ≤ i64Max then d.diff_days (Int.ofNat days.v) else none

/-- `Day::checked_sub_days`: as `checked_add_days` with the negated count. -/
def Day.checked_sub_days {Tz : Type} (d : Day Tz) (days : Days) : Option (Day Tz) :=
  if days.v = 0 then some d
  else if days.v ≤ i64Max then d.diff_days (-(Int.ofNat days.v)) else none

/-- `impl Add<Days> for Day`: `checked_add_days(days).unwrap()`; the `none`
case models the panic of `unwrap` on an absent result. -/
def Day.addDays {Tz : Type} (d : Day Tz) (days : Days) : Option (Day Tz) :=
  d.checked_add_days days

/-- `impl Sub<Days> for Day`: `checked_sub_days(days).unwrap()`; the `none`
case models the panic of `unwrap` on an absent result. -/
def Day.subDays {Tz : Type} (d : Day Tz) (days : Days) : Option (Day Tz) :=
  d.checked_sub_days days

/-! ## Text codec (modelled from the spec; only its tests are in the sources) -/

/-- The decimal digit character for `n < 10`. -/
def digitChar (n : Nat) : Char := Char.ofNat (48 + n)

/-- Render `n` as exactly `w` zero-padded decimal digits. -/
def padNum (w n : Nat) : String :=
  String.mk ((List.range w).map fun i => digitChar (n / 10 ^ (w - 1 - i) % 10))

/-- Modelled from the spec: the `AutoSi` digit-grouping choice (§4.5): the
smallest grouping size among 3, 6, 9 whose digit count exactly reproduces the
stored nanoseconds. -/
def autoSiDigits (n : Nat) : Nat :=
  if n % 1000000 = 0 then 3 else if n % 1000 = 0 then 6 else 9

/-- Modelled from the spec: the `AutoSi` fractional-second rendering, a dot
followed by the chosen grouping's digits. -/
def autoSiFrac (n : Nat) : String :=
  "." ++ padNum (autoSiDigits n) (n / 10 ^ (9 - autoSiDigits n))

/-- Modelled from the spec: the default RFC 3339 fractional rendering (no
fraction at all when the nanosecond field is zero, otherwise the shortest
exact grouping), as pinned by the round-trip tests. -/
def rfc3339Frac (n : Nat) : String :=
  if n = 0 then "" else autoSiFrac n

/-- Render an offset in seconds east of UTC as `±hh:mm`. -/
def formatOffset (off : Int) : String :=
  (if off < 0 then "-" else "+") ++
    padNum 2 (off.natAbs / 3600) ++ ":" ++ padNum 2 (off.natAbs % 3600 / 60)

/-- The civil fields rendered for a local reading: a positive leap second
displays as second `60` of its minute with the extra whole second removed
from the fraction. -/
def displayFields (l : NaiveDateTime) : Nat × Nat × Nat × Nat :=
  let leap := 1000000000 ≤ l.time.frac
  (l.time.secs / 3600, l.time.secs % 3600 / 60,
   l.time.secs % 60 + (if leap then 1 else 0),
   if leap then l.time.frac - 1000000000 else l.time.frac)

/-- Render the civil date-and-time part `YYYY-MM-DDThh:mm:ss` of a local
reading (years in `[0, 9999]`). -/
def formatCivil (l : NaiveDateTime) : String :=
  let c := civilFromDays l.date.days
  let f := displayFields l
  padNum 4 c.1.toNat ++ "-" ++ padNum 2 c.2.1.toNat ++ "-" ++ padNum 2 c.2.2.toNat ++
    "T" ++ padNum 2 f.1 ++ ":" ++ padNum 2 f.2.1 ++ ":" ++ padNum 2 f.2.2.1

/-- Modelled from the spec: `to_rfc3339` (§4.5) — the local civil reading,
the fraction in its shortest exact grouping (omitted when zero), and the
offset as `±hh:mm`. -/
def DateTime.to_rfc3339 (dt : DateTime) : String :=
  let l := dt.naive_local
  formatCivil l ++ rfc3339Frac (displayFields l).2.2.2 ++ formatOffset dt.offset

/-- Modelled from the spec: `to_rfc3339_opts` with `AutoSi` precision — as
`to_rfc3339` but the fraction always rendered with the `AutoSi` grouping
rule. -/
def DateTime.to_rfc3339_autosi (dt : DateTime) : String :=
  let l := dt.naive_local
  formatCivil l ++ autoSiFrac (displayFields l).2.2.2 ++ formatOffset dt.offset

/-! ## Concrete values used to instantiate the theorems -/

/-- The instant of civil `2014-05-06 07:08:09` read at UTC (day number 16196
is 2014-05-06). -/
def utcSample : DateTime := DateTime.from_local ⟨⟨16196⟩, NaiveTime.from_hms 7 8 9⟩ 0

/-- The same absolute moment as `utcSample`, read at offset −04:00 as civil
`2014-05-06 03:08:09` (the pair compared in `test_datetime_offset`). -/
def edtSample : DateTime := DateTime.from_local ⟨⟨16196⟩, NaiveTime.from_hms 3 8 9⟩ (-14400)

/-! ## Theorems -/

/-- C3: for instants denoting the same absolute moment (equal `naive_utc`
readings), possibly under different offsets, equality holds, the ordering
compares equal, and the signed duration between them is zero in both
directions. -/
theorem datetime_eq_ord_utc_only (a b : DateTime) (h : a.datetime = b.datetime) :
    DateTime.eqb a b = true ∧ DateTime.cmp a b = Ordering.eq ∧
      DateTime.signed_duration_since a b = 0 ∧ DateTime.signed_duration_since b a = 0 := by
  refine ⟨?_, ?_, ?_, ?_⟩
  · simp [DateTime.eqb, h]
  · simp [DateTime.cmp, NaiveDateTime.cmp, h, NaiveDateTime.ltb, NaiveTime.ltb]
  · simp [DateTime.signed_duration_since, h]
  · simp [DateTime.signed_duration_since, h]

/-- Witness for C3 at the pair of `test_datetime_offset`: UTC 07:08:09 and
−04:00 03:08:09 on 2014-05-06 denote the same moment. -/
theorem datetime_eq_ord_utc_only_witness :
    DateTime.eqb utcSample edtSample = true ∧
      DateTime.cmp utcSample edtSample = Ordering.eq ∧
      DateTime.signed_duration_since utcSample edtSample = 0 ∧
      DateTime.signed_duration_since edtSample utcSample = 0 :=
  datetime_eq_ord_utc_only utcSample edtSample (by decide)

/-- C5: `Day` equality and ordering are determined by the civil date alone —
for any two provider values (even of different truth), days with equal dates
are equal and compare `eq`, and `eqb`/`cmp` answer exactly as the dates do. -/
theorem day_eq_ord_date_only {Tz : Type} (d1 d2 : NaiveDate) (t1 t2 : Tz) :
    (Day.eqb ⟨d1, t1⟩ ⟨d2, t2⟩ = true ↔ d1 = d2) ∧
      (Day.cmp ⟨d1, t1⟩ ⟨d2, t2⟩ = Ordering.eq ↔ d1 = d2) ∧
      (d1 = d2 → Day.eqb ⟨d1, t1⟩ ⟨d2, t2⟩ = true ∧ Day.cmp ⟨d1, t1⟩ ⟨d2, t2⟩ = Ordering.eq) := by
  have hcmp : Day.cmp (⟨d1, t1⟩ : Day Tz) ⟨d2, t2⟩ = Ordering.eq ↔ d1 = d2 := by
    simp only [Day.cmp, compare_eq_iff_eq]
    exact ⟨fun h => by cases d1; cases d2; simpa using h, fun h => by rw [h]⟩
  have heq : Day.eqb (⟨d1, t1⟩ : Day Tz) ⟨d2, t2⟩ = true ↔ d1 = d2 := by
    simp [Day.eqb]
  exact ⟨heq, hcmp, fun h => ⟨heq.mpr h, hcmp.mpr h⟩⟩

/-- Witness for C5: two `Day`s on day number 5 with distinct provider values
are equal and compare equal. -/
theorem day_eq_ord_date_only_witness :
    Day.eqb (⟨⟨5⟩, true⟩ : Day Bool) ⟨⟨5⟩, false⟩ = true ∧
      Day.cmp (⟨⟨5⟩, true⟩ : Day Bool) ⟨⟨5⟩, false⟩ = Ordering.eq :=
  (day_eq_ord_date_only ⟨5⟩ ⟨5⟩ true false).2.2 rfl

/-- C4: `checked_add_days`/`checked_sub_days` shift only the civil date by
the day count and keep the provider; a zero-day shift is the identity; a
result landing outside the representable calendar range is absent. -/
theorem day_checked_day_shift {Tz : Type} (d : Day Tz) (n : Nat) (hn : n ≠ 0) :
    (Day.checked_add_days d ⟨0⟩ = some d ∧ Day.checked_sub_days d ⟨0⟩ = some d) ∧
      (∀ r, Day.checked_add_days d ⟨n⟩ = some r →
        r.tz = d.tz ∧ r.date.days = d.date.days + (n : Int)) ∧
      (∀ r, Day.checked_sub_days d ⟨n⟩ = some r →
        r.tz = d.tz ∧ r.date.days = d.date.days - (n : Int)) ∧
      (n ≤ i64Max → dateMinDays ≤ d.date.days + (n : Int) →
        d.date.days + (n : Int) ≤ dateMaxDays →
        Day.checked_add_days d ⟨n⟩ = some ⟨⟨d.date.days + (n : Int)⟩, d.tz⟩) ∧
      (¬(dateMinDays ≤ d.date.days + (n : Int) ∧ d.date.days + (n : Int) ≤ dateMaxDays) →
        Day.checked_add_days d ⟨n⟩ = none) ∧
      (¬(dateMinDays ≤ d.date.days - (n : Int) ∧ d.date.days - (n : Int) ≤ dateMaxDays) →
        Day.checked_sub_days d ⟨n⟩ = none) := by
  refine ⟨⟨by simp [Day.checked_add_days], by simp [Day.checked_sub_days]⟩, ?_, ?_, ?_, ?_, ?_⟩
  · intro r hr
    simp only [Day.checked_add_days, Day.diff_days, NaiveDate.add_days, hn, if_false,
      Option.map_eq_map] at hr
    split at hr
    · split at hr
      · simp at hr
        subst hr
        exact ⟨rfl, rfl⟩
      · simp at hr
    · simp at hr
  · intro r hr
    simp only [Day.checked_sub_days, Day.diff_days, NaiveDate.add_days, hn, if_false,
      Option.map_eq_map] at hr
    split at hr
    · split at hr
      · simp at hr
        subst hr
        refine ⟨rfl, ?_⟩
        simp [Int.sub_eq_add_neg]
      · simp at hr
    · simp at hr
  · intro h1 h2 h3
    simp [Day.checked_add_days, Day.diff_days, NaiveDate.add_days, hn, h1, h2, h3]
  · intro h
    simp only [Day.checked_add_days, Day.diff_days, NaiveDate.add_days, hn, if_false]
    split
    · split
      · exact absurd (by assumption) h
      · simp
    · rfl
  · intro h
    simp only [Day.checked_sub_days, Day.diff_days, NaiveDate.add_days, hn, if_false]
    split
    · split
      · rename_i hin
        rw [Int.sub_eq_add_neg] at h
        exact absurd hin h
      · simp
    · rfl

/-- Witness for C4: the identity at zero and a 3-day shift from day 0 under
the unit provider. -/
theorem day_checked_day_shift_witness :
    Day.checked_add_days (⟨⟨0⟩, ()⟩ : Day Unit) ⟨0⟩ = some ⟨⟨0⟩, ()⟩ ∧
      Day.checked_add_days (⟨⟨0⟩, ()⟩ : Day Unit) ⟨3⟩ = some ⟨⟨0 + 3⟩, ()⟩ :=
  ⟨(day_checked_day_shift (⟨⟨0⟩, ()⟩ : Day Unit) 3 (by decide)).1.1,
    (day_checked_day_shift (⟨⟨0⟩, ()⟩ : Day Unit) 3 (by decide)).2.2.2.1
      (by decide) (by decide) (by decide)⟩

/-- C10: the operator forms `Day + Days` and `Day - Days` delegate to the
checked forms, agree with them whenever those succeed, and panic (modelled as
`none`) exactly when the checked form is absent — a nonzero count that either
exceeds `i64::MAX` or lands outside the calendar range. -/
theorem day_add_sub_operator_unwrap {Tz : Type} (d : Day Tz) (n : Days) :
    (Day.addDays d n = Day.checked_add_days d n ∧
      Day.subDays d n = Day.checked_sub_days d n) ∧
      (Day.addDays d n = none ↔ n.v ≠ 0 ∧ (i64Max < n.v ∨
        ¬(dateMinDays ≤ d.date.days + (n.v : Int) ∧
          d.date.days + (n.v : Int) ≤ dateMaxDays))) ∧
      (Day.subDays d n = none ↔ n.v ≠ 0 ∧ (i64Max < n.v ∨
        ¬(dateMinDays ≤ d.date.days - (n.v : Int) ∧
          d.date.days - (n.v : Int) ≤ dateMaxDays))) := by
  refine ⟨⟨rfl, rfl⟩, ?_, ?_⟩
  · simp only [Day.addDays, Day.checked_add_days, Day.diff_days, NaiveDate.add_days]
    split
    · simp_all
    · split
      · rename_i h1 h2
        constructor
        · intro h
          refine ⟨h1, Or.inr ?_⟩
          intro hc
          simp [hc.1, hc.2] at h
        · rintro ⟨-, h⟩
          rcases h with h | h
          · omega
          · split
            · exact absurd (by assumption) h
            · simp
      · simp_all
  · simp only [Day.subDays, Day.checked_sub_days, Day.diff_days, NaiveDate.add_days]
    split
    · simp_all
    · split
      · rename_i h1 h2
        constructor
        · intro h
          refine ⟨h1, Or.inr ?_⟩
          intro hc
          rw [Int.sub_eq_add_neg] at hc
          simp [hc.1, hc.2] at h
        · rintro ⟨-, h⟩
          rcases h with h | h
          · omega
          · split
            · rename_i hin
              rw [Int.sub_eq_add_neg] at h
              exact absurd hin h
            · simp
      · simp_all

/-- Witness for C10: `Day + Days(1)` panics at the last representable day and
`Day - Days(1)` panics at the first. -/
theorem day_add_sub_operator_unwrap_witness :
    Day.addDays (⟨⟨dateMaxDays⟩, ()⟩ : Day Unit) ⟨1⟩ = none ∧
      Day.subDays (⟨⟨dateMinDays⟩, ()⟩ : Day Unit) ⟨1⟩ = none :=
  ⟨(day_add_sub_operator_unwrap (⟨⟨dateMaxDays⟩, ()⟩ : Day Unit) ⟨1⟩).2.1.mpr
      (by refine ⟨by decide, Or.inr ?_⟩; decide),
    (day_add_sub_operator_unwrap (⟨⟨dateMinDays⟩, ()⟩ : Day Unit) ⟨1⟩).2.2.mpr
      (by refine ⟨by decide, Or.inr ?_⟩; decide)⟩

/-- The strict civil order is irreflexive. -/
lemma NaiveDateTime.ltb_irrefl (a : NaiveDateTime) : NaiveDateTime.ltb a a = false := by
  simp [NaiveDateTime.ltb, NaiveTime.ltb]

/-- The strict civil order is total on distinct readings. -/
lemma NaiveDateTime.ltb_total {a b : NaiveDateTime} (h : a ≠ b) :
    NaiveDateTime.ltb a b = true ∨ NaiveDateTime.ltb b a = true := by
  obtain ⟨⟨da⟩, sa, fa⟩ := a
  obtain ⟨⟨db⟩, sb, fb⟩ := b
  simp only [ne_eq, NaiveDateTime.mk.injEq, NaiveDate.mk.injEq, NaiveTime.mk.injEq, not_and] at h
  simp only [NaiveDateTime.ltb, NaiveTime.ltb, Bool.or_eq_true, Bool.and_eq_true, decide_eq_true_eq,
    beq_iff_eq]
  by_cases hd : da = db
  · by_cases hs : sa = sb
    · have : ¬fa = fb := by tauto
      omega
    · omega
  · omega

/-- Skipping lemma for the probe loop: if every probe from index `k0` up to
(but excluding) `k` resolves to `None`, the loop started at `k0` agrees with
the loop started at `k` on the remaining fuel. -/
lemma startLoop_skip (res : NaiveDateTime → LocalResult DateTime) (date : NaiveDate) :
    ∀ (fuel k0 k : Nat), k0 ≤ k → k < k0 + fuel →
      (∀ j, k0 ≤ j → j < k → res ⟨date, probeTime j⟩ = .nothing) →
      startLoop res date k0 fuel = startLoop res date k (k0 + fuel - k) := by
  intro fuel
  induction fuel with
  | zero => intro k0 k h1 h2 _; omega
  | succ f ih =>
    intro k0 k h1 h2 hnone
    rcases Nat.eq_or_lt_of_le h1 with heq | hlt
    · subst heq
      have : k0 + (f + 1) - k0 = f + 1 := by omega
      rw [this]
    · have h0 : res ⟨date, probeTime k0⟩ = .nothing := hnone k0 le_rfl hlt
      have step : startLoop res date k0 (f + 1) = startLoop res date (k0 + 1) f := by
        simp only [startLoop, h0]
      rw [step, ih (k0 + 1) k hlt (by omega)
        (fun j hj1 hj2 => hnone j (by omega) hj2)]
      have : k0 + 1 + f - k = k0 + (f + 1) - k := by omega
      rw [this]

/-- If every probe covered by the fuel resolves to `None`, the loop falls
through and returns `none`. -/
lemma startLoop_all_nothing (res : NaiveDateTime → LocalResult DateTime) (date : NaiveDate) :
    ∀ (fuel k0 : Nat), (∀ j, k0 ≤ j → j < k0 + fuel → res ⟨date, probeTime j⟩ = .nothing) →
      startLoop res date k0 fuel = none := by
  intro fuel
  induction fuel with
  | zero => intro k0 _; rfl
  | succ f ih =>
    intro k0 hnone
    have h0 : res ⟨date, probeTime k0⟩ = .nothing := hnone k0 le_rfl (by omega)
    simp only [startLoop, h0]
    exact ih (k0 + 1) fun j hj1 hj2 => hnone j (by omega) (by omega)

/-- C1: if within the probe window `k = 0..=24` every probe before index `k`
resolves to `None` and the probe at `midnight + k·15min` resolves to
`Single(dt)`, then `Day::start` returns `dt`. -/
theorem day_start_first_single_probe {Tz : Type}
    (resolve : Tz → NaiveDateTime → LocalResult DateTime) (d : Day Tz) (k : Nat)
    (dt : DateTime) (hk : k ≤ 24)
    (hnone : ∀ j, j < k → resolve d.tz ⟨d.date, probeTime j⟩ = .nothing)
    (hsingle : resolve d.tz ⟨d.date, probeTime k⟩ = .single dt) :
    Day.start resolve d = some dt := by
  unfold Day.start
  rw [startLoop_skip (resolve d.tz) d.date 25 0 k (by omega) (by omega)
    (fun j _ hj => hnone j hj)]
  obtain ⟨f, hf⟩ : ∃ f, 0 + 25 - k = f + 1 := ⟨24 - k, by omega⟩
  rw [hf]
  simp only [startLoop, hsingle]

/-- Witness for C1: a provider that is `None` at midnight and `Single` at the
second probe (00:15) makes `start` return that instant. -/
theorem day_start_first_single_probe_witness :
    Day.start
      (fun (_ : Unit) ndt =>
        if ndt.time.secs = 0 then LocalResult.nothing else .single ⟨ndt, 0⟩)
      ⟨⟨0⟩, ()⟩ = some ⟨⟨⟨0⟩, ⟨900, 0⟩⟩, 0⟩ :=
  day_start_first_single_probe
    (fun (_ : Unit) ndt =>
      if ndt.time.secs = 0 then LocalResult.nothing else .single ⟨ndt, 0⟩)
    ⟨⟨0⟩, ()⟩ 1 ⟨⟨⟨0⟩, ⟨900, 0⟩⟩, 0⟩ (by omega) (by decide) (by decide)

/-- C2: if the first probe that does not resolve to `None` yields
`Ambiguous(a, b)` with distinct UTC instants (the provider contract), then
`Day::start` returns exactly the one with the smaller UTC instant, and the
two are unequal as instants. -/
theorem day_start_ambiguous_earlier {Tz : Type}
    (resolve : Tz → NaiveDateTime → LocalResult DateTime) (d : Day Tz) (k : Nat)
    (a b : DateTime) (hk : k ≤ 24)
    (hnone : ∀ j, j < k → resolve d.tz ⟨d.date, probeTime j⟩ = .nothing)
    (hamb : resolve d.tz ⟨d.date, probeTime k⟩ = .ambiguous a b)
    (hab : a.datetime ≠ b.datetime) :
    DateTime.eqb a b = false ∧
      ((Day.start resolve d = some a ∧
          NaiveDateTime.ltb a.naive_utc b.naive_utc = true) ∨
        (Day.start resolve d = some b ∧
          NaiveDateTime.ltb b.naive_utc a.naive_utc = true)) := by
  have hstep : Day.start resolve d =
      (if NaiveDateTime.ltb a.naive_utc b.naive_utc then some a else some b) := by
    unfold Day.start
    rw [startLoop_skip (resolve d.tz) d.date 25 0 k (by omega) (by omega)
      (fun j _ hj => hnone j hj)]
    obtain ⟨f, hf⟩ : ∃ f, 0 + 25 - k = f + 1 := ⟨24 - k, by omega⟩
    rw [hf]
    simp only [startLoop, hamb]
  refine ⟨by simp [DateTime.eqb, hab], ?_⟩
  by_cases hlt : NaiveDateTime.ltb a.naive_utc b.naive_utc = true
  · left
    rw [hstep, if_pos hlt]
    exact ⟨rfl, hlt⟩
  · right
    rw [hstep, if_neg hlt]
    refine ⟨rfl, ?_⟩
    rcases NaiveDateTime.ltb_total hab with h | h
    · exact absurd h hlt
    · exact h

/-- Witness for C2: a provider ambiguous at midnight between two instants a
second apart makes `start` return the earlier one. -/
theorem day_start_ambiguous_earlier_witness :
    DateTime.eqb ⟨⟨⟨0⟩, ⟨0, 0⟩⟩, 0⟩ ⟨⟨⟨0⟩, ⟨1, 0⟩⟩, 0⟩ = false ∧
      ((Day.start
          (fun (_ : Unit) _ =>
            LocalResult.ambiguous ⟨⟨⟨0⟩, ⟨1, 0⟩⟩, 0⟩ ⟨⟨⟨0⟩, ⟨0, 0⟩⟩, 0⟩)
          ⟨⟨0⟩, ()⟩ = some ⟨⟨⟨0⟩, ⟨0, 0⟩⟩, 0⟩ ∧
          NaiveDateTime.ltb (DateTime.naive_utc ⟨⟨⟨0⟩, ⟨0, 0⟩⟩, 0⟩)
            (DateTime.naive_utc ⟨⟨⟨0⟩, ⟨1, 0⟩⟩, 0⟩) = true) ∨
        (Day.start
          (fun (_ : Unit) _ =>
            LocalResult.ambiguous ⟨⟨⟨0⟩, ⟨1, 0⟩⟩, 0⟩ ⟨⟨⟨0⟩, ⟨0, 0⟩⟩, 0⟩)
          ⟨⟨0⟩, ()⟩ = some ⟨⟨⟨0⟩, ⟨1, 0⟩⟩, 0⟩ ∧
          NaiveDateTime.ltb (DateTime.naive_utc ⟨⟨⟨0⟩, ⟨1, 0⟩⟩, 0⟩)
            (DateTime.naive_utc ⟨⟨⟨0⟩, ⟨0, 0⟩⟩, 0⟩) = true)) := by
  have h := day_start_ambiguous_earlier
    (fun (_ : Unit) _ => LocalResult.ambiguous ⟨⟨⟨0⟩, ⟨1, 0⟩⟩, 0⟩ ⟨⟨⟨0⟩, ⟨0, 0⟩⟩, 0⟩)
    ⟨⟨0⟩, ()⟩ 0 ⟨⟨⟨0⟩, ⟨1, 0⟩⟩, 0⟩ ⟨⟨⟨0⟩, ⟨0, 0⟩⟩, 0⟩ (by omega)
    (by omega) (by decide) (by decide)
  exact ⟨by decide, h.2.symm⟩

/-- C9: if every one of the 25 probes `k = 0..=24` resolves to `None`,
`Day::start` reaches the `panic!` (modelled as `none`): it never returns an
instant in that case. -/
theorem day_start_exhausted_panics {Tz : Type}
    (resolve : Tz → NaiveDateTime → LocalResult DateTime) (d : Day Tz)
    (hall : ∀ k, k ≤ 24 → resolve d.tz ⟨d.date, probeTime k⟩ = .nothing) :
    Day.start resolve d = none := by
  unfold Day.start
  exact startLoop_all_nothing (resolve d.tz) d.date 25 0
    fun j _ hj => hall j (by omega)

/-- Witness for C9: the provider that always answers `None` makes `start`
panic. -/
theorem day_start_exhausted_panics_witness :
    Day.start (fun (_ : Unit) _ => (LocalResult.nothing : LocalResult DateTime))
      ⟨⟨0⟩, ()⟩ = none :=
  day_start_exhausted_panics (fun (_ : Unit) _ => LocalResult.nothing) ⟨⟨0⟩, ()⟩
    fun _ _ => rfl

/-! ## Leap-second parsing and the RFC 3339 scenarios -/

/-- Modelled from the spec: the RFC 2822 parser is not in the sources.  Per
§4.5, parsing `"Wed, 18 Feb 2015 23:59:60 +0500"` reads the leap second `60`
at civil `2015-02-18 23:59` under offset `+05:00` and folds it into the
internal leap-second representation with its (absent) sub-second fraction
truncated to the millisecond — `and_hms_milli(23, 59, 59, 1_000)`, exactly as
pinned by `test_datetime_rfc2822_and_rfc3339`. -/
def parsed_rfc2822_leap : DateTime :=
  DateTime.from_local ⟨⟨daysFromCivil 2015 2 18⟩, NaiveTime.from_hms_milli 23 59 59 1000⟩ 18000

/-- Modelled from the spec: the RFC 3339 parser is not in the sources.  Per
§4.5, parsing `"2015-02-18T23:59:60.234567+05:00"` folds the leap second and
its fraction into the reserved nanosecond band —
`and_hms_micro(23, 59, 59, 1_234_567)`, exactly as pinned by
`test_datetime_rfc2822_and_rfc3339`. -/
def parsed_rfc3339_leap : DateTime :=
  DateTime.from_local ⟨⟨daysFromCivil 2015 2 18⟩, NaiveTime.from_hms_micro 23 59 59 1234567⟩ 18000

/-- Instant comparison truncated to millisecond resolution: the UTC civil
readings agree on date and second, and on the nanosecond field divided down
to whole milliseconds. -/
def DateTime.eqAtMillis (a b : DateTime) : Bool :=
  a.datetime.date == b.datetime.date && a.datetime.time.secs == b.datetime.time.secs &&
    a.datetime.time.frac / 1000000 == b.datetime.time.frac / 1000000

/-- C6 counterexample: the parsed RFC 2822 leap second
`"Wed, 18 Feb 2015 23:59:60 +0500"` is NOT equal at millisecond truncation to
the RFC 3339 leap-second value `23:59:59.234567 +05:00`: their millisecond
fields are 1000 and 1234. -/
theorem rfc2822_leap_differs_at_millis :
    DateTime.eqAtMillis parsed_rfc2822_leap parsed_rfc3339_leap = false ∧
      parsed_rfc2822_leap.datetime.time.frac / 1000000 = 1000 ∧
      parsed_rfc3339_leap.datetime.time.frac / 1000000 = 1234 := by
  decide

/-- C6 amended: parsing the RFC 2822 leap-second text yields the leap second
with its sub-second fraction truncated to exactly the `+1000 ms` internal
convention: nanosecond field `1_000_000_000` (second 59 of the leap band), a
value that renders back through RFC 3339 as `2015-02-18T23:59:60+05:00` and
equals the fraction-free RFC 3339 leap-second value at millisecond
truncation; it is a different instant from the `.234567` value, 234.567 ms
later. -/
theorem rfc2822_leap_parse_value :
    parsed_rfc2822_leap.datetime.time.frac = 1000000000 ∧
      parsed_rfc2822_leap.datetime.time.secs = 68399 ∧
      DateTime.to_rfc3339 parsed_rfc2822_leap = "2015-02-18T23:59:60+05:00" ∧
      DateTime.eqAtMillis parsed_rfc2822_leap
        (DateTime.from_local
          ⟨⟨daysFromCivil 2015 2 18⟩, NaiveTime.from_hms_milli 23 59 59 1000⟩ 18000) = true ∧
      DateTime.signed_duration_since parsed_rfc3339_leap parsed_rfc2822_leap = 234567000 := by
  refine ⟨by decide, by decide, ?_, by decide, by decide⟩
  decide

/-- The instant of the C7 scenario: civil `2014-05-06 07:08:09` under the
fixed offset 9 hours east of UTC. -/
def kstScenario : DateTime :=
  DateTime.from_local ⟨⟨daysFromCivil 2014 5 6⟩, NaiveTime.from_hms 7 8 9⟩ 32400

/-- C7: the RFC 3339 rendering of civil `2014-05-06 07:08:09` at offset
east 9h is exactly `"2014-05-06T07:08:09+09:00"`, and adding 3661 seconds
yields civil `2014-05-06 08:09:10` in the same offset. -/
theorem fixed_offset_rfc3339_scenario :
    DateTime.to_rfc3339 kstScenario = "2014-05-06T07:08:09+09:00" ∧
      (kstScenario.addDt 3661).naive_local =
        ⟨⟨daysFromCivil 2014 5 6⟩, NaiveTime.from_hms 8 9 10⟩ ∧
      (kstScenario.addDt 3661).offset = 32400 := by
  refine ⟨?_, by decide, by decide⟩
  decide

/-- The instant of the C8 test pin: `2018-01-11 10:05:13.084660000` at offset
east 8h (`test_rfc3339_opts`). -/
def pstScenario : DateTime :=
  DateTime.from_local ⟨⟨daysFromCivil 2018 1 11⟩, NaiveTime.from_hms_nano 10 5 13 84660000⟩ 28800

/-- C8: the `AutoSi` grouping is one of 3, 6 or 9 digits, reproduces the
stored nanoseconds exactly, is the smallest such grouping, is 6 whenever the
value divides at micro- but not milli-resolution, and in particular a
nanosecond field of 84,660,000 renders as `".084660"` — the full test-pinned
rendering being `"2018-01-11T10:05:13.084660+08:00"`. -/
theorem autosi_shortest_exact_grouping (n : Nat) (hn : n < 1000000000) :
    (autoSiDigits n = 3 ∨ autoSiDigits n = 6 ∨ autoSiDigits n = 9) ∧
      n % 10 ^ (9 - autoSiDigits n) = 0 ∧
      (∀ d, (d = 3 ∨ d = 6 ∨ d = 9) → n % 10 ^ (9 - d) = 0 → autoSiDigits n ≤ d) ∧
      (n % 1000 = 0 → n % 1000000 ≠ 0 → autoSiDigits n = 6) ∧
      autoSiFrac 84660000 = ".084660" ∧
      DateTime.to_rfc3339_autosi pstScenario = "2018-01-11T10:05:13.084660+08:00" := by
  have h369 : autoSiDigits n = 3 ∨ autoSiDigits n = 6 ∨ autoSiDigits n = 9 := by
    unfold autoSiDigits
    split
    · exact Or.inl rfl
    · split
      · exact Or.inr (Or.inl rfl)
      · exact Or.inr (Or.inr rfl)
  refine ⟨h369, ?_, ?_, ?_, by decide, by decide⟩
  · unfold autoSiDigits
    split
    · simpa using by assumption
    · split
      · simpa using by assumption
      · simpa using Nat.mod_one n
  · intro d hd hrepr
    unfold autoSiDigits
    rcases hd with rfl | rfl | rfl
    · simp only [show (9 : Nat) - 3 = 6 from rfl, pow_succ] at hrepr
      have h6 : n % 1000000 = 0 := by omega
      simp [h6]
    · split
      · omega
      · split
        · omega
        · simp only [show (9 : Nat) - 6 = 3 from rfl] at hrepr
          omega
    · split
      · omega
      · split
        · omega
        · omega
  · intro h3 h6
    unfold autoSiDigits
    simp [h3, h6]

/-- Witness for C8 at the test-pinned nanosecond value 84,660,000: the
grouping is 6 digits, exact, and renders `".084660"`. -/
theorem autosi_shortest_exact_grouping_witness :
    autoSiDigits 84660000 = 6 ∧ autoSiFrac 84660000 = ".084660" :=
  ⟨(autosi_shortest_exact_grouping 84660000 (by omega)).2.2.2.1 (by decide) (by decide),
    (autosi_shortest_exact_grouping 84660000 (by omega)).2.2.2.2.1⟩

end Chrono
